import Mathlib

/-!
Shallow embedding of the Crypto-Journal trade dashboard (src/index.tsx,
src/types.ts): trade data model, stats engine, form submission handler,
delete handler and AI-audit client, with theorems checking the
specification's claims about them.

JavaScript numbers are modelled as rationals extended with an explicit NaN
value (`JsNum`); the arithmetic used by the program (addition, negation,
truthiness, comparisons produced by `parseFloat`) is defined on that type.
Infinities do not arise on the inputs the program manipulates and are not
modelled. External collaborators (the id generator from `./utils`, the
`Date` conversions, the remote text-generation call) are passed in as
parameters, mirroring the spec's treatment of them as collaborators.
-/

namespace CryptoJournal

/-- A JavaScript number: either NaN or a finite value (modelled as ℚ). -/
inductive JsNum where
  | nan : JsNum
  | num : ℚ → JsNum
deriving DecidableEq

/-- JavaScript `+` on numbers: NaN is absorbing. -/
def JsNum.add : JsNum → JsNum → JsNum
  | JsNum.num a, JsNum.num b => JsNum.num (a + b)
  | _, _ => JsNum.nan

/-- JavaScript unary minus: NaN stays NaN. -/
def JsNum.neg : JsNum → JsNum
  | JsNum.nan => JsNum.nan
  | JsNum.num a => JsNum.num (-a)

/-- JavaScript truthiness of a number: NaN and 0 are falsy. -/
def JsNum.toBool : JsNum → Bool
  | JsNum.nan => false
  | JsNum.num a => a != 0

/-- `x >= 0` in JavaScript: false for NaN. -/
def JsNum.nonneg : JsNum → Bool
  | JsNum.nan => false
  | JsNum.num a => decide (0 ≤ a)

/-- JavaScript `x || y` specialised to numbers: `x` when truthy, else `y`. -/
def jsOr (x y : JsNum) : JsNum := if x.toBool then x else y

/-- Value of a list of decimal digit characters. -/
def digitsToNat (ds : List Char) : ℕ :=
  ds.foldl (fun acc c => 10 * acc + (c.toNat - '0'.toNat)) 0

/-- Decimal exponent part accepted after the mantissa: an optional sign and
digits; missing digits count as exponent 0 (as `parseFloat("1e")` yields 1). -/
def parseExpDigits : List Char → ℤ
  | '-' :: r => -(digitsToNat (r.takeWhile Char.isDigit) : ℤ)
  | '+' :: r => (digitsToNat (r.takeWhile Char.isDigit) : ℤ)
  | r => (digitsToNat (r.takeWhile Char.isDigit) : ℤ)

/-- The exponent marker `e`/`E` followed by `parseExpDigits`; anything else
contributes exponent 0. -/
def parseExp : List Char → ℤ
  | 'e' :: r => parseExpDigits r
  | 'E' :: r => parseExpDigits r
  | _ => 0

/-- Multiply a rational by a (possibly negative) power of ten. -/
def applyExp (q : ℚ) (e : ℤ) : ℚ :=
  if 0 ≤ e then q * 10 ^ e.toNat else q / 10 ^ (-e).toNat

/-- Model of JavaScript `parseFloat` on finite decimal literals: skip leading
whitespace, take an optional sign, integer digits, an optional fraction and an
optional exponent; if no digit is found the result is NaN. Trailing
non-numeric characters are ignored, as in JavaScript. -/
def parseFloat (s : String) : JsNum :=
  let cs := s.toList.dropWhile Char.isWhitespace
  let signAndRest : ℚ × List Char :=
    match cs with
    | '-' :: r => (-1, r)
    | '+' :: r => (1, r)
    | _ => (1, cs)
  let intSpan := signAndRest.2.span Char.isDigit
  let fracSpan : List Char × List Char :=
    match intSpan.2 with
    | '.' :: r => r.span Char.isDigit
    | _ => ([], intSpan.2)
  if intSpan.1.isEmpty ∧ fracSpan.1.isEmpty then JsNum.nan
  else
    let mant : ℚ :=
      signAndRest.1 *
        ((digitsToNat intSpan.1 : ℚ) + (digitsToNat fracSpan.1 : ℚ) / 10 ^ fracSpan.1.length)
    JsNum.num (applyExp mant (parseExp fracSpan.2))

/-- `TradeResult` from src/types.ts: `'gain' | 'loss'`. -/
inductive TradeResult where
  | gain : TradeResult
  | loss : TradeResult
deriving DecidableEq

/-- `Trade` from src/types.ts. Timestamps are epoch milliseconds (integers). -/
structure Trade where
  id : String
  pair : String
  timestamp : ℤ
  resultType : TradeResult
  amount : JsNum
  rrr : JsNum
  reason : String
deriving DecidableEq

/-- `Stats` from src/types.ts. -/
structure Stats where
  daily : JsNum
  threeDay : JsNum
  weekly : JsNum
  monthly : JsNum
  allTime : JsNum
deriving DecidableEq

/-- The signed contribution of a trade to an aggregate, as computed inline in
the reducers of src/index.tsx: `t.resultType === 'gain' ? t.amount : -t.amount`. -/
def signedContribution (t : Trade) : JsNum :=
  match t.resultType with
  | TradeResult.gain => t.amount
  | TradeResult.loss => t.amount.neg

/-- `reduce((acc, t) => acc + (t.resultType === 'gain' ? t.amount : -t.amount), 0)`
from src/index.tsx. -/
def tradeSum (ts : List Trade) : JsNum :=
  ts.foldl (fun acc t => acc.add (signedContribution t)) (JsNum.num 0)

/-- The trades retained by a window's filter in src/index.tsx:
`trades.filter(t => t.timestamp >= now - sinceMs)`. -/
def windowTrades (trades : List Trade) (now sinceMs : ℤ) : List Trade :=
  trades.filter (fun t => decide (now - sinceMs ≤ t.timestamp))

/-- The `calc` closure of the stats memo in src/index.tsx: filter by the
window's lower bound, then reduce with signed contributions. -/
def calcWindow (trades : List Trade) (now sinceMs : ℤ) : JsNum :=
  tradeSum (windowTrades trades now sinceMs)

/-- `const dayMs = 24 * 60 * 60 * 1000` from src/index.tsx. -/
def dayMs : ℤ := 24 * 60 * 60 * 1000

/-- The stats memo of src/index.tsx, as a function of the trade collection
and the current time `now = Date.now()`. -/
def stats (trades : List Trade) (now : ℤ) : Stats :=
  { daily := calcWindow trades now dayMs
    threeDay := calcWindow trades now (dayMs * 3)
    weekly := calcWindow trades now (dayMs * 7)
    monthly := calcWindow trades now (dayMs * 30)
    allTime := tradeSum trades }

/-- The `form` state of src/index.tsx: all fields are raw strings except the
result-type select. -/
structure FormState where
  pair : String
  time : String
  resultType : TradeResult
  amount : String
  rrr : String
  reason : String
deriving DecidableEq

/-- JavaScript `toUpperCase`, as a character-wise map (the program only
feeds it ASCII instrument symbols). -/
def jsToUpperCase (s : String) : String := String.mk (s.data.map Char.toUpper)

/-- The reset form written by `setForm` after a successful submission:
`nowLocal` stands for `new Date().toISOString().slice(0, 16)`. -/
def resetForm (nowLocal : String) : FormState :=
  { pair := ""
    time := nowLocal
    resultType := TradeResult.gain
    amount := ""
    rrr := ""
    reason := "" }

/-- `handleAddTrade` from src/index.tsx as a function of the form state and
the trade collection. `freshId` stands for `generateId()` (the opaque
generator in `./utils`), `getTime` for `s => new Date(s).getTime()` and
`nowLocal` for the current local date-time string used to reset the form.
Returns the new trade collection and the new form state; the guard
`if (!form.pair || !form.amount) return` leaves both unchanged exactly when
`pair` or `amount` is the empty string. -/
def handleAddTrade (form : FormState) (trades : List Trade) (freshId : String)
    (getTime : String → ℤ) (nowLocal : String) : List Trade × FormState :=
  if form.pair = "" ∨ form.amount = "" then (trades, form)
  else
    let newTrade : Trade :=
      { id := freshId
        pair := jsToUpperCase form.pair
        timestamp := getTime form.time
        resultType := form.resultType
        amount := parseFloat form.amount
        rrr := jsOr (parseFloat form.rrr) (JsNum.num 0)
        reason := form.reason }
    (newTrade :: trades, resetForm nowLocal)

/-- The delete handler of src/index.tsx, line 206:
`setTrades(trades.filter(t => t.id !== trade.id))`. -/
def deleteTrade (trades : List Trade) (targetId : String) : List Trade :=
  trades.filter (fun t => t.id != targetId)

/-- The pieces of React state touched by the AI audit client. -/
structure AppState where
  trades : List Trade
  isAnalyzing : Bool
  aiCritique : Option String
deriving DecidableEq

/-- The fallback critique set in the catch branch of `runAiAudit`. -/
def fallbackCritique : String := "Failed to analyze trades. Check API connectivity."

/-- Rendering of a JsNum when spliced into a template literal. -/
def JsNum.render : JsNum → String
  | JsNum.nan => "NaN"
  | JsNum.num q => toString q

/-- One line of the audit history, from src/index.tsx:
`[pair] <sign><amount> (RRR: <rrr>). Reason: <reason>`. -/
def formatTradeLine (t : Trade) : String :=
  "[" ++ t.pair ++ "] " ++
    (match t.resultType with
      | TradeResult.gain => "+"
      | TradeResult.loss => "-") ++
    t.amount.render ++ " (RRR: " ++ t.rrr.render ++ "). Reason: " ++ t.reason

/-- The composed prompt of `runAiAudit`: the fixed coaching instruction
followed by the newline-joined history of the first ten trades
(`trades.slice(0, 10)`). -/
def buildPrompt (trades : List Trade) : String :=
  "Act as a world-class crypto trading coach. Analyze my recent trades and provide 3 bullet points of psychological or tactical advice based on these patterns:\n\n"
    ++ String.intercalate "\n" ((trades.take 10).map formatTradeLine)

/-- The request `runAiAudit` sends via `ai.models.generateContent`. -/
structure AuditRequest where
  model : String
  prompt : String
deriving DecidableEq

/-- `runAiAudit` from src/index.tsx, as a state transformer. The remote call
is a collaborator; its settled outcome is the parameter `remote` (`Except.ok`
the response text, `Except.error` any transport, authentication or service
error). The result pairs the state after the operation settles with the
request that was issued, `none` when no request was sent. The guard
`if (trades.length === 0) return` exits before any request; the try/catch
turns any error into the fallback critique, and the finally clause clears
`isAnalyzing` on every path that made a request. The embedding is a total
function: no outcome makes it throw. -/
def runAiAudit (ε : Type) (s : AppState) (remote : Except ε String) :
    AppState × Option AuditRequest :=
  if s.trades.length = 0 then (s, none)
  else
    let request : AuditRequest :=
      { model := "gemini-3-flash-preview", prompt := buildPrompt s.trades }
    match remote with
    | Except.ok text =>
        ({ s with aiCritique := some text, isAnalyzing := false }, some request)
    | Except.error _ =>
        ({ s with aiCritique := some fallbackCritique, isAnalyzing := false }, some request)

/-!
Specification-side definitions, written from the spec's words, to be compared
with the code-derived definitions above.
-/

/-- Spec-side sum of signed contributions over a list of trades (§3 of the
spec: `+amount` for a gain, `-amount` for a loss). -/
def signedSumSpec (ts : List Trade) : JsNum :=
  ts.foldr (fun t acc => (signedContribution t).add acc) (JsNum.num 0)

/-- Spec-side windowed aggregate, following §4.1 verbatim: the sum of signed
contributions over trades whose timestamp lies in the closed interval
`[now - L, now]`. -/
def specWindowSum (trades : List Trade) (now L : ℤ) : JsNum :=
  signedSumSpec
    (trades.filter (fun t => decide (now - L ≤ t.timestamp ∧ t.timestamp ≤ now)))

/-- The windowed aggregate the code actually computes, stated spec-side: the
sum of signed contributions over trades whose timestamp is at least
`now - L`, with no upper bound. -/
def lowerBoundWindowSum (trades : List Trade) (now L : ℤ) : JsNum :=
  signedSumSpec (trades.filter (fun t => decide (now - L ≤ t.timestamp)))

/-! Concrete sample data used by witnesses and counterexamples. -/

/-- A gain of 100 logged at timestamp 1, in the future relative to `now = 0`. -/
def futureTrade : Trade :=
  { id := "a"
    pair := "BTC"
    timestamp := 1
    resultType := TradeResult.gain
    amount := JsNum.num 100
    rrr := JsNum.num 0
    reason := "" }

/-- A plain pre-existing trade. -/
def someTrade : Trade :=
  { id := "k1"
    pair := "ETH/USDT"
    timestamp := 1700000000000
    resultType := TradeResult.loss
    amount := JsNum.num 40
    rrr := JsNum.num 2
    reason := "late entry" }

/-- First of the two trades of the deletion witness. -/
def tradeA : Trade :=
  { id := "a1"
    pair := "BTC/USDT"
    timestamp := 100
    resultType := TradeResult.gain
    amount := JsNum.num 10
    rrr := JsNum.num 1
    reason := "" }

/-- Second of the two trades of the deletion witness. -/
def tradeB : Trade :=
  { id := "b2"
    pair := "ETH/USDT"
    timestamp := 200
    resultType := TradeResult.loss
    amount := JsNum.num 5
    rrr := JsNum.num 2
    reason := "fomo" }

/-- A valid form submission: non-empty pair, parsable amount and rrr. -/
def goodForm : FormState :=
  { pair := "btc/usdt"
    time := "2024-01-01T00:00"
    resultType := TradeResult.gain
    amount := "50"
    rrr := "2.5"
    reason := "breakout" }

/-- A submission with an empty pair and a parsable amount. -/
def emptyPairForm : FormState :=
  { pair := ""
    time := "2024-01-01T00:00"
    resultType := TradeResult.gain
    amount := "50"
    rrr := ""
    reason := "" }

/-- A submission whose amount is non-empty but not parsable as a number. -/
def unparsableAmountForm : FormState :=
  { pair := "BTC/USDT"
    time := "2024-01-01T00:00"
    resultType := TradeResult.gain
    amount := "abc"
    rrr := ""
    reason := "" }

/-- A submission whose amount parses to a negative number. -/
def negAmountForm : FormState :=
  { pair := "BTC"
    time := "2024-01-01T00:00"
    resultType := TradeResult.loss
    amount := "-5"
    rrr := ""
    reason := "" }

/-- App state with a non-empty collection, mid-flight. -/
def auditState : AppState :=
  { trades := [someTrade], isAnalyzing := true, aiCritique := none }

/-- App state with an empty collection. -/
def emptyAuditState : AppState :=
  { trades := [], isAnalyzing := false, aiCritique := some "old" }

/-! Helper lemmas on JsNum sums. -/

/-- Adding the number 0 on the right is the identity. -/
theorem JsNum.add_zero (a : JsNum) : a.add (JsNum.num 0) = a := by
  cases a <;> simp [JsNum.add]

/-- Adding the number 0 on the left is the identity. -/
theorem JsNum.zero_add (a : JsNum) : (JsNum.num 0).add a = a := by
  cases a <;> simp [JsNum.add]

/-- JsNum addition is associative (NaN is absorbing on both sides). -/
theorem JsNum.add_assoc (a b c : JsNum) : (a.add b).add c = a.add (b.add c) := by
  cases a <;> cases b <;> cases c <;> simp [JsNum.add] <;> ring

/-- The left fold of the code's reducer from any accumulator equals the
accumulator plus the spec-side right-fold sum. -/
theorem foldl_add_signedSumSpec (l : List Trade) (a : JsNum) :
    l.foldl (fun acc t => acc.add (signedContribution t)) a = a.add (signedSumSpec l) := by
  induction l generalizing a with
  | nil => simp [signedSumSpec, JsNum.add_zero]
  | cons t l ih =>
      simp only [List.foldl_cons, signedSumSpec, List.foldr_cons] at ih ⊢
      rw [ih, JsNum.add_assoc]

/-- The code's reduce and the spec-side sum of signed contributions agree. -/
theorem tradeSum_eq_signedSumSpec (l : List Trade) : tradeSum l = signedSumSpec l := by
  rw [tradeSum, foldl_add_signedSumSpec, JsNum.zero_add]

/-- `x || 0` on numbers is `x` unless `x` is NaN, in which case it is 0
(`x = 0` gives 0, which is also `x`). -/
theorem jsOr_zero (x : JsNum) :
    jsOr x (JsNum.num 0) = if x = JsNum.nan then JsNum.num 0 else x := by
  cases x with
  | nan => rfl
  | num q =>
      by_cases hq : q = 0 <;> simp [jsOr, JsNum.toBool, hq]

/-- Deleting by an id held by exactly one trade shortens the list by one. -/
theorem length_filter_ne_id (trades : List Trade) (targetId : String)
    (hnodup : (trades.map Trade.id).Nodup)
    (hmem : trades.any (fun t => t.id == targetId) = true) :
    (trades.filter (fun t => t.id != targetId)).length + 1 = trades.length := by
  induction trades with
  | nil => simp at hmem
  | cons t l ih =>
      simp only [List.map_cons, List.nodup_cons] at hnodup
      by_cases h : t.id = targetId
      · have hl : l.filter (fun x => x.id != targetId) = l := by
          rw [List.filter_eq_self]
          intro x hx
          have hxid : x.id ≠ targetId := by
            intro hxid
            exact hnodup.1 (List.mem_map.mpr ⟨x, hx, by rw [hxid, h]⟩)
          simp [hxid]
        simp [List.filter_cons, h, hl]
      · have hmem' : l.any (fun t => t.id == targetId) = true := by
          simp only [List.any_cons, Bool.or_eq_true, beq_iff_eq] at hmem
          exact hmem.resolve_left h |> fun hx => by simpa using hx
        have := ih hnodup.2 hmem'
        simp only [List.filter_cons, h]
        simp [h, List.length_cons]
        omega

/-! Claim theorems. -/

unseal Rat.add Rat.mul Rat.inv Rat.sub in
/-- Claim C1 as stated is false: the code's window filter has no upper bound,
so a trade with a future timestamp is counted although it lies outside the
closed interval `[now - L, now]`. With `now = 0` and a single gain of 100 at
timestamp 1, the code's `daily` field is 100 while the spec's closed-interval
sum over `[now - dayMs, now]` is 0. -/
theorem stats_daily_closed_interval_counterexample :
    ¬ ((stats [futureTrade] 0).daily = specWindowSum [futureTrade] 0 dayMs) := by
  decide

/-- Claim C1 (amended): each windowed stats field (`daily`, `threeDay`,
`weekly`, `monthly`) equals the sum of signed contributions (+amount for a
gain, -amount for a loss) over exactly those trades whose timestamp is at
least `now - L` — the window is `[now - L, ∞)`, with no upper bound at
`now` — where L is 1, 3, 7, or 30 days expressed in milliseconds
(`24*60*60*1000` times 1, 3, 7, 30) respectively. -/
theorem stats_windows_are_lower_bound_sums (trades : List Trade) (now : ℤ) :
    (stats trades now).daily = lowerBoundWindowSum trades now (24 * 60 * 60 * 1000 * 1) ∧
    (stats trades now).threeDay = lowerBoundWindowSum trades now (24 * 60 * 60 * 1000 * 3) ∧
    (stats trades now).weekly = lowerBoundWindowSum trades now (24 * 60 * 60 * 1000 * 7) ∧
    (stats trades now).monthly = lowerBoundWindowSum trades now (24 * 60 * 60 * 1000 * 30) := by
  refine ⟨?_, ?_, ?_, ?_⟩ <;>
    · show calcWindow _ _ _ = _
      rw [calcWindow, windowTrades, lowerBoundWindowSum, tradeSum_eq_signedSumSpec]
      norm_num [dayMs]

/-- Claim C2: a trade whose timestamp is in the future relative to `now`
(timestamp > now) is kept by the filter of every windowed stats field —
future timestamps are not special-cased or excluded. -/
theorem future_trade_in_every_window (trades : List Trade) (now : ℤ) (t : Trade)
    (hmem : t ∈ trades) (hfut : now < t.timestamp) :
    t ∈ windowTrades trades now dayMs ∧ t ∈ windowTrades trades now (dayMs * 3) ∧
    t ∈ windowTrades trades now (dayMs * 7) ∧ t ∈ windowTrades trades now (dayMs * 30) := by
  refine ⟨?_, ?_, ?_, ?_⟩ <;>
    · rw [windowTrades, List.mem_filter]
      refine ⟨hmem, ?_⟩
      simp only [decide_eq_true_eq, dayMs]
      omega

/-- Witness for C2 at `now = 0` and the future trade at timestamp 1. -/
theorem future_trade_in_every_window_witness :
    (futureTrade ∈ [futureTrade] ∧ (0 : ℤ) < futureTrade.timestamp) ∧
    (futureTrade ∈ windowTrades [futureTrade] 0 dayMs ∧
      futureTrade ∈ windowTrades [futureTrade] 0 (dayMs * 3) ∧
      futureTrade ∈ windowTrades [futureTrade] 0 (dayMs * 7) ∧
      futureTrade ∈ windowTrades [futureTrade] 0 (dayMs * 30)) :=
  ⟨⟨by decide, by decide⟩,
    future_trade_in_every_window [futureTrade] 0 futureTrade (by decide) (by decide)⟩

unseal Rat.add Rat.mul Rat.inv Rat.sub in
/-- Claim C3 as stated is false: the submission handler does not validate the
sign of the amount. Starting from the empty collection (which satisfies
`amount >= 0`), submitting the accepted form with pair "BTC" and amount "-5"
adds a trade whose stored amount is the negative number -5. -/
theorem amount_invariant_counterexample :
    (List.all ([] : List Trade) (fun t => t.amount.nonneg) = true) ∧
    (handleAddTrade negAmountForm [] "id1" (fun _ => 0) "t").1.all
        (fun t => t.amount.nonneg) = false ∧
    parseFloat negAmountForm.amount = JsNum.num (-5) := by
  decide

/-- Claim C3 (amended): every trade having `amount >= 0` is preserved by
deletion unconditionally, and by form submission provided the submitted
amount string parses to a non-negative number — the code itself does not
validate non-negativity, so the sign of a contribution is carried by
`resultType` only under that proviso. -/
theorem amount_invariant_amended (trades : List Trade) (targetId : String)
    (form : FormState) (freshId : String) (getTime : String → ℤ) (nowLocal : String)
    (hinv : trades.all (fun t => t.amount.nonneg) = true)
    (hamount : (parseFloat form.amount).nonneg = true) :
    (deleteTrade trades targetId).all (fun t => t.amount.nonneg) = true ∧
    (handleAddTrade form trades freshId getTime nowLocal).1.all
        (fun t => t.amount.nonneg) = true := by
  constructor
  · rw [List.all_eq_true] at hinv ⊢
    intro t ht
    exact hinv t (List.mem_of_mem_filter ht)
  · rw [handleAddTrade]
    split
    · exact hinv
    · simp [List.all_cons, hamount, hinv]

unseal Rat.add Rat.mul Rat.inv Rat.sub in
/-- Witness for the amended C3 on a one-trade collection and the valid form. -/
theorem amount_invariant_amended_witness :
    ([someTrade].all (fun t => t.amount.nonneg) = true ∧
      (parseFloat goodForm.amount).nonneg = true) ∧
    ((deleteTrade [someTrade] "zzz").all (fun t => t.amount.nonneg) = true ∧
      (handleAddTrade goodForm [someTrade] "id2" (fun _ => 5) "t").1.all
          (fun t => t.amount.nonneg) = true) :=
  ⟨⟨by decide, by decide⟩,
    amount_invariant_amended [someTrade] "zzz" goodForm "id2" (fun _ => 5) "t"
      (by decide) (by decide)⟩

unseal Rat.add Rat.mul Rat.inv Rat.sub in
/-- Claim C4 as stated is false: the handler only checks that `pair` and
`amount` are non-empty strings. A non-empty amount that is unparsable as a
number (here "abc", whose parse is NaN) is not rejected: a trade is created
and the collection grows. -/
theorem reject_unparsable_counterexample :
    parseFloat unparsableAmountForm.amount = JsNum.nan ∧
    unparsableAmountForm.amount ≠ "" ∧
    unparsableAmountForm.pair ≠ "" ∧
    (handleAddTrade unparsableAmountForm [] "id3" (fun _ => 0) "t").1.length = 1 := by
  decide

/-- Claim C4 (amended): on form submission, if `pair` is the empty string or
`amount` is the empty string, the submission is silently rejected: no trade
is created, the trade collection is unchanged, the form fields are not
cleared, and no error is surfaced. A non-empty amount is accepted even when
it does not parse as a number. -/
theorem reject_empty_fields (form : FormState) (trades : List Trade) (freshId : String)
    (getTime : String → ℤ) (nowLocal : String)
    (h : form.pair = "" ∨ form.amount = "") :
    handleAddTrade form trades freshId getTime nowLocal = (trades, form) := by
  rw [handleAddTrade, if_pos h]

/-- Witness for the amended C4: the spec's own scenario pair = "",
amount = "50" leaves the collection and the form unchanged. -/
theorem reject_empty_fields_witness :
    (emptyPairForm.pair = "" ∨ emptyPairForm.amount = "") ∧
    handleAddTrade emptyPairForm [someTrade] "id4" (fun _ => 0) "t" =
      ([someTrade], emptyPairForm) :=
  ⟨Or.inl rfl,
    reject_empty_fields emptyPairForm [someTrade] "id4" (fun _ => 0) "t" (Or.inl rfl)⟩

/-- Claim C5: when the audit request settles with any error, the critique is
the fixed fallback text and `isAnalyzing` is false; on success `isAnalyzing`
is false as well. No exception propagates: `runAiAudit` is a total function
of the settled outcome. -/
theorem audit_failure_fallback (ε : Type) (s : AppState) (e : ε) (text : String)
    (h : s.trades ≠ []) :
    (runAiAudit ε s (Except.error e)).1.aiCritique = some fallbackCritique ∧
    (runAiAudit ε s (Except.error e)).1.isAnalyzing = false ∧
    (runAiAudit ε s (Except.ok text)).1.isAnalyzing = false := by
  have hlen : ¬ s.trades.length = 0 := by simpa using h
  simp [runAiAudit, hlen]

/-- Witness for C5 on a one-trade collection mid-flight. -/
theorem audit_failure_fallback_witness :
    (auditState.trades ≠ []) ∧
    ((runAiAudit Unit auditState (Except.error ())).1.aiCritique = some fallbackCritique ∧
      (runAiAudit Unit auditState (Except.error ())).1.isAnalyzing = false ∧
      (runAiAudit Unit auditState (Except.ok "advice")).1.isAnalyzing = false) :=
  ⟨by decide, audit_failure_fallback Unit auditState () "advice" (by decide)⟩

/-- Claim C6: on an empty trade collection the audit operation is a no-op —
no request is issued (the request component is `none`) and the state is
returned unchanged, whatever the remote outcome would have been. -/
theorem audit_empty_collection_noop (ε : Type) (s : AppState) (remote : Except ε String)
    (h : s.trades = []) :
    runAiAudit ε s remote = (s, none) := by
  simp [runAiAudit, h]

/-- Witness for C6 on the empty collection with an error outcome. -/
theorem audit_empty_collection_noop_witness :
    emptyAuditState.trades = [] ∧
    runAiAudit String emptyAuditState (Except.error "boom") = (emptyAuditState, none) :=
  ⟨rfl, audit_empty_collection_noop String emptyAuditState (Except.error "boom") rfl⟩

/-- Claim C7: `allTime` is the sum of signed contributions over the entire
collection, unfiltered, and its value does not depend on `now`. -/
theorem allTime_unfiltered_time_independent (trades : List Trade) (now1 now2 : ℤ) :
    (stats trades now1).allTime = signedSumSpec trades ∧
    (stats trades now1).allTime = (stats trades now2).allTime := by
  exact ⟨tradeSum_eq_signedSumSpec trades, rfl⟩

/-- Claim C8: an accepted submission (non-empty pair, non-empty parsable
amount) prepends exactly one trade whose pair is the uppercased input, whose
amount is the parsed value, and whose rrr is the parsed value or 0 when the
rrr input is unparsable; all previously present trades are unchanged and the
collection grows to size N+1. -/
theorem accepted_submission_shape (form : FormState) (trades : List Trade)
    (freshId : String) (getTime : String → ℤ) (nowLocal : String)
    (hpair : form.pair ≠ "") (hamount : form.amount ≠ "")
    (hparse : parseFloat form.amount ≠ JsNum.nan) :
    (handleAddTrade form trades freshId getTime nowLocal).1 =
      { id := freshId
        pair := jsToUpperCase form.pair
        timestamp := getTime form.time
        resultType := form.resultType
        amount := parseFloat form.amount
        rrr := if parseFloat form.rrr = JsNum.nan then JsNum.num 0 else parseFloat form.rrr
        reason := form.reason } :: trades ∧
    (handleAddTrade form trades freshId getTime nowLocal).1.length = trades.length + 1 := by
  have hcond : ¬ (form.pair = "" ∨ form.amount = "") := by
    rintro (hc | hc)
    · exact hpair hc
    · exact hamount hc
  constructor
  · simp [handleAddTrade, hcond, jsOr_zero]
  · simp [handleAddTrade, hcond]

unseal Rat.add Rat.mul Rat.inv Rat.sub in
/-- Witness for C8 on the valid form over a one-trade collection. -/
theorem accepted_submission_shape_witness :
    (goodForm.pair ≠ "" ∧ goodForm.amount ≠ "" ∧
      parseFloat goodForm.amount ≠ JsNum.nan) ∧
    ((handleAddTrade goodForm [someTrade] "id5" (fun _ => 5) "t").1 =
        { id := "id5"
          pair := jsToUpperCase goodForm.pair
          timestamp := (fun _ : String => (5 : ℤ)) goodForm.time
          resultType := goodForm.resultType
          amount := parseFloat goodForm.amount
          rrr := if parseFloat goodForm.rrr = JsNum.nan then JsNum.num 0
            else parseFloat goodForm.rrr
          reason := goodForm.reason } :: [someTrade] ∧
      (handleAddTrade goodForm [someTrade] "id5" (fun _ => 5) "t").1.length =
        [someTrade].length + 1) :=
  ⟨⟨by decide, by decide, by decide⟩,
    accepted_submission_shape goodForm [someTrade] "id5" (fun _ => 5) "t"
      (by decide) (by decide) (by decide)⟩

/-- Claim C9: deleting by an id X held by exactly one trade (ids pairwise
distinct, X present) yields a collection of size N-1, containing no trade
with id X, that is a sublist of the original — every trade other than X is
kept, in the original relative order. -/
theorem delete_by_id_exact (trades : List Trade) (targetId : String)
    (hnodup : (trades.map Trade.id).Nodup)
    (hmem : trades.any (fun t => t.id == targetId) = true) :
    (deleteTrade trades targetId).length = trades.length - 1 ∧
    (deleteTrade trades targetId).all (fun t => t.id != targetId) = true ∧
    List.Sublist (deleteTrade trades targetId) trades ∧
    trades.all (fun t => t.id == targetId || decide (t ∈ deleteTrade trades targetId)) = true := by
  refine ⟨?_, ?_, ?_, ?_⟩
  · have := length_filter_ne_id trades targetId hnodup hmem
    rw [deleteTrade]
    omega
  · rw [List.all_eq_true]
    intro t ht
    exact (List.mem_filter.mp ht).2
  · exact List.filter_sublist trades
  · rw [List.all_eq_true]
    intro t ht
    by_cases h : t.id = targetId
    · simp [h]
    · have : t ∈ deleteTrade trades targetId := by
        rw [deleteTrade]
        exact List.mem_filter.mpr ⟨ht, by simp [h]⟩
      simp [this]

/-- Witness for C9 on a two-trade collection with distinct ids. -/
theorem delete_by_id_exact_witness :
    (([tradeA, tradeB].map Trade.id).Nodup ∧
      [tradeA, tradeB].any (fun t => t.id == "a1") = true) ∧
    ((deleteTrade [tradeA, tradeB] "a1").length = [tradeA, tradeB].length - 1 ∧
      (deleteTrade [tradeA, tradeB] "a1").all (fun t => t.id != "a1") = true ∧
      List.Sublist (deleteTrade [tradeA, tradeB] "a1") [tradeA, tradeB] ∧
      [tradeA, tradeB].all
          (fun t => t.id == "a1" || decide (t ∈ deleteTrade [tradeA, tradeB] "a1")) = true) :=
  ⟨⟨by decide, by decide⟩,
    delete_by_id_exact [tradeA, tradeB] "a1" (by decide) (by decide)⟩

/-- Claim C10: the audit operation never modifies the trade collection —
whatever the outcome of the remote call (success, failure, or the
empty-collection no-op), the trades after `runAiAudit` settles are the
trades before it was invoked. -/
theorem audit_preserves_trades (ε : Type) (s : AppState) (remote : Except ε String) :
    (runAiAudit ε s remote).1.trades = s.trades := by
  by_cases h : s.trades.length = 0
  · simp [runAiAudit, h]
  · cases remote <;> simp [runAiAudit, h]

end CryptoJournal
